import Mathlib

/-!
Shallow embedding of `src/farm_management.py` (FarmTech Solutions farm
management script): the crop-record data model, the record-store mutators
(`input_crop_data`, `update_crop_data`, `delete_crop_data`) and the CSV
flattening codec (`export_to_csv`, `import_from_csv`), together with
proofs about the specification claims.

Numeric modelling: Python floats are modelled as rationals (`ℚ`).  The
script only multiplies them, divides by 10000 and serialises them, and
Python's `str`/`float` round-trip on floats is exact, so a CSV cell
written from a float is modelled as carrying its numeric value exactly.
Python ints are modelled as `ℤ`.

The interactive prompt loops of the script re-prompt until the user
supplies a valid value; the functions below therefore take the finally
accepted values as arguments (the crop-type choice as a `Fin` into the
catalog, per-kind amounts as a function from kind to the accepted
amount).
-/

namespace FarmTech

/-- One entry of the Input Catalog (`crop_inputs.json`): the display name
and unit of one input kind. -/
structure InputInfo where
  name : String
  unit : String
deriving DecidableEq, Repr

/-- The Input Catalog `INPUTS`: an ordered association from crop type to
its input kinds.  A Python `dict` preserves insertion order, so an ordered
association list is the faithful rendering; `CROP_TYPES` is its list of
keys. -/
abbrev Catalog := List (String × List (String × InputInfo))

/-- One value of a record's `inputs` dict, as assembled in
`input_crop_data` and in `import_from_csv`. -/
structure Measurement where
  name : String
  amount_per_ha : ℚ
  total_amount : ℚ
  unit : String
deriving DecidableEq, Repr

/-- One element of the global `crop_data` list. -/
structure CropRecord where
  type : String
  length : ℚ
  width : ℚ
  area : ℚ
  num_rows : ℤ
  inputs : List (String × Measurement)
deriving DecidableEq, Repr

/-- `calculate_area`: rectangular area in hectares, `(length * width) / 10000`. -/
def calculate_area (length width : ℚ) : ℚ :=
  length * width / 10000

/-- `calculate_total_input`: total input needed, `area * amount_per_ha`. -/
def calculate_total_input (area amount_per_ha : ℚ) : ℚ :=
  area * amount_per_ha

/-- The record built by one full round of `input_crop_data` user
interaction.  `choice` is the crop-type menu choice after the validation
loop (the loop re-prompts until `1 <= choice <= len(CROP_TYPES)`, so it is
modelled 0-based as `Fin catalog.length`); `amounts k` is the per-hectare
amount finally accepted for input kind `k` (the inner loop re-prompts
until it is non-negative).  A kind is recorded only when its amount is
strictly positive, mirroring `if amount_per_ha > 0`. -/
def new_record (catalog : Catalog) (choice : Fin catalog.length)
    (flength fwidth : ℚ) (nrows : ℤ) (amounts : String → ℚ) : CropRecord :=
  let crop_type := (catalog.get choice).1
  let area := calculate_area flength fwidth
  let available := (catalog.lookup crop_type).getD []
  { type := crop_type
    length := flength
    width := fwidth
    area := area
    num_rows := nrows
    inputs := available.filterMap fun ki =>
      if 0 < amounts ki.1 then
        some (ki.1,
          { name := ki.2.name
            amount_per_ha := amounts ki.1
            total_amount := calculate_total_input area (amounts ki.1)
            unit := ki.2.unit })
      else none }

/-- `input_crop_data`: appends the newly entered record to `crop_data`. -/
def input_crop_data (catalog : Catalog) (choice : Fin catalog.length)
    (flength fwidth : ℚ) (nrows : ℤ) (amounts : String → ℚ)
    (store : List CropRecord) : List CropRecord :=
  store ++ [new_record catalog choice flength fwidth nrows amounts]

/-- The failure reports of `update_crop_data` / `delete_crop_data`:
"No data available" when the store is empty, "Invalid index." when the
1-based index is out of range.  Both deny the operation because the index
refers to no existing record. -/
inductive StoreError where
  | noData
  | invalidIndex
deriving DecidableEq, Repr

/-- `update_crop_data`: reads a 1-based `index`; with `idx := index - 1`
in range it runs `input_crop_data()` (appending the freshly entered
record to the store) and then executes `crop_data[idx] = crop_data.pop()`:
the appended record is popped off the end and written over position
`idx`.  Otherwise the store is left alone and an error is reported.
The `getLastD` default is never used: the appended store is non-empty. -/
def update_crop_data (catalog : Catalog) (index : ℤ)
    (choice : Fin catalog.length) (flength fwidth : ℚ) (nrows : ℤ)
    (amounts : String → ℚ) (store : List CropRecord) :
    List CropRecord × Option StoreError :=
  if store.isEmpty then (store, some StoreError.noData)
  else
    let idx := index - 1
    if 0 ≤ idx ∧ idx < (store.length : ℤ) then
      let appended := input_crop_data catalog choice flength fwidth nrows amounts store
      let plast := appended.getLastD (new_record catalog choice flength fwidth nrows amounts)
      (appended.dropLast.set idx.toNat plast, none)
    else (store, some StoreError.invalidIndex)

/-- `delete_crop_data`: reads a 1-based `index`; with `idx := index - 1`
in range it executes `del crop_data[idx]`; otherwise the store is left
alone and an error is reported. -/
def delete_crop_data (index : ℤ) (store : List CropRecord) :
    List CropRecord × Option StoreError :=
  if store.isEmpty then (store, some StoreError.noData)
  else
    let idx := index - 1
    if 0 ≤ idx ∧ idx < (store.length : ℤ) then
      (store.eraseIdx idx.toNat, none)
    else (store, some StoreError.invalidIndex)

/-- One CSV cell, classified by how Python's `float`/`int` parse its text:
`num q` is a cell whose text is a float literal (but not an int literal)
of value `q` — Python's `str`/`float` round-trip is exact, so the value is
carried exactly; `int z` is a cell whose text is an integer literal,
accepted by both `int()` and `float()`; `str s` is free-form text accepted
by neither (the cells the script never parses numerically are written with
this constructor); `empty` is the empty cell that `csv.DictWriter` writes
(its default `restval` is the empty string) for a header column absent
from a row's dict — `float('')` and `int('')` raise `ValueError`. -/
inductive Cell where
  | str (s : String)
  | num (q : ℚ)
  | int (z : ℤ)
  | empty
deriving DecidableEq, Repr

/-- The raw text of a cell, as the `csv` reader hands it to code that uses
it as a plain string (the `type`, `{kind}_name` and `{kind}_unit` columns). -/
def Cell.text : Cell → String
  | .str s => s
  | .num q => toString q
  | .int z => toString z
  | .empty => ""

/-- The list literal `['name', 'amount_per_ha', 'total_amount', 'unit']`
iterated over when `export_to_csv` builds the header. -/
def subfieldKeys : List String := ["name", "amount_per_ha", "total_amount", "unit"]

/-- The header `fieldnames` computed by `export_to_csv`: the five fixed
columns, then, looping over every record of the store and every input kind
present in that record, the four columns `f"{input_type}_{key}"`.  The
code never removes duplicates, so a kind occurring in several records
contributes its group of four columns once per record. -/
def fieldnames (store : List CropRecord) : List String :=
  ["type", "length", "width", "area", "num_rows"] ++
    store.flatMap fun crop =>
      crop.inputs.flatMap fun ki =>
        subfieldKeys.map fun key => ki.1 ++ "_" ++ key

/-- The per-kind entries of the `row` dict built in `export_to_csv`:
`row[f"{t}_name"]`, `row[f"{t}_amount_per_ha"]`, `row[f"{t}_total_amount"]`
and `row[f"{t}_unit"]` for each input kind `t` of the record. -/
def inputCells (inputs : List (String × Measurement)) : List (String × Cell) :=
  inputs.flatMap fun km =>
    [(km.1 ++ "_name", Cell.str km.2.name),
     (km.1 ++ "_amount_per_ha", Cell.num km.2.amount_per_ha),
     (km.1 ++ "_total_amount", Cell.num km.2.total_amount),
     (km.1 ++ "_unit", Cell.str km.2.unit)]

/-- The dict `row` built for one record in `export_to_csv` before
`writer.writerow(row)`: the five fixed entries of the dict literal
followed by the per-kind entries. -/
def rowDict (crop : CropRecord) : List (String × Cell) :=
  [("type", Cell.str crop.type),
   ("length", Cell.num crop.length),
   ("width", Cell.num crop.width),
   ("area", Cell.num crop.area),
   ("num_rows", Cell.int crop.num_rows)] ++ inputCells crop.inputs

/-- The cell `csv.DictWriter` emits for column `c` of a record's row: the
row dict's value when present, else the writer's `restval` (the empty
string).  Every key of the row dict occurs among the computed header
columns, so the writer's `extrasaction='raise'` check never fires during
export. -/
def cellFor (crop : CropRecord) (c : String) : Cell :=
  ((rowDict crop).lookup c).getD Cell.empty

/-- One data line as `csv.DictWriter.writerow` emits it: one cell per
header column, in header order. -/
def writeRow (fns : List String) (crop : CropRecord) : List Cell :=
  fns.map (cellFor crop)

/-- A CSV file: the header line and the data lines. -/
abbrev CSVFile := List String × List (List Cell)

/-- `export_to_csv`: on an empty store it only prints "No data available
to export." and returns — no file is created or overwritten, and the
function contains no assignment to `crop_data`, so the store is untouched
(the embedding is a pure function of the store).  Otherwise it writes the
computed header and one row per record to `crop_data.csv`. -/
def export_to_csv (store : List CropRecord) : Option CSVFile :=
  if store.isEmpty then none
  else some (fieldnames store, store.map (writeRow (fieldnames store)))

/-- A row as `csv.DictReader` delivers it: the association obtained by
zipping the header with the line's cells.  Python's `dict(zip(...))`
keeps the last value of a repeated key, hence the last-wins lookup
below. -/
abbrev Row := List (String × Cell)

/-- Last-wins association lookup: the dict `csv.DictReader` builds from a
line keeps, for a header name occurring several times, the value of its
last occurrence. -/
def lookupLast (k : String) : Row → Option Cell
  | [] => none
  | kv :: rest =>
    match lookupLast k rest with
    | some v => some v
    | none => if kv.1 = k then some kv.2 else none

/-- The row dicts `csv.DictReader` produces from a file. -/
def readCSVFile (f : CSVFile) : List Row :=
  f.2.map fun cells => f.1.zip cells

/-- The exceptions `import_from_csv` catches: `FileNotFoundError`,
`KeyError` (a missing column, or a crop type that is not a key of
`INPUTS`) and `ValueError` (a cell `float`/`int` cannot parse). -/
inductive ImportError where
  | fileNotFound
  | keyError (k : String)
  | valueError
deriving DecidableEq, Repr

/-- Python `float(text)` on a cell: float and int literals parse to their
value; free text and the empty string raise `ValueError`. -/
def pyFloat : Cell → Except ImportError ℚ
  | .num q => .ok q
  | .int z => .ok (z : ℚ)
  | .str _ => .error ImportError.valueError
  | .empty => .error ImportError.valueError

/-- Python `int(text)` on a cell: only an integer literal parses; a float
literal such as `"2.5"`, free text and the empty string raise
`ValueError`. -/
def pyInt : Cell → Except ImportError ℤ
  | .int z => .ok z
  | _ => .error ImportError.valueError

/-- `row[k]`: dict access, raising `KeyError` when the column is absent
from the row. -/
def getCol (row : Row) (k : String) : Except ImportError Cell :=
  match lookupLast k row with
  | some c => .ok c
  | none => .error (ImportError.keyError k)

/-- The measurement dict built in the import loop body, in source order:
`row[f"{t}_name"]`, `float(row[f"{t}_amount_per_ha"])`,
`float(row[f"{t}_total_amount"])`, `row[f"{t}_unit"]`. -/
def builtMeasurement (row : Row) (k : String) : Except ImportError Measurement := do
  let namec ← getCol row (k ++ "_name")
  let apc ← getCol row (k ++ "_amount_per_ha")
  let ap ← pyFloat apc
  let tac ← getCol row (k ++ "_total_amount")
  let ta ← pyFloat tac
  let uc ← getCol row (k ++ "_unit")
  pure { name := namec.text, amount_per_ha := ap, total_amount := ta, unit := uc.text }

/-- The loop `for input_type in INPUTS[row['type']].keys()` of the import:
an input kind is reconstructed exactly when its `{kind}_name` column is
present in the row dict; the first failing kind aborts. -/
def parse_inputs (row : Row) :
    List (String × InputInfo) → Except ImportError (List (String × Measurement))
  | [] => .ok []
  | ki :: rest =>
    if (lookupLast (ki.1 ++ "_name") row).isSome then do
      let m ← builtMeasurement row ki.1
      let tail ← parse_inputs row rest
      pure ((ki.1, m) :: tail)
    else parse_inputs row rest

/-- One iteration of the import loop: build the record dict (fixed fields
in the order of the dict literal, with `float`/`int` conversions), look
the crop type up in the Input Catalog (`KeyError` when absent), then
reconstruct the measurements. -/
def parse_row (catalog : Catalog) (row : Row) : Except ImportError CropRecord := do
  let tcell ← getCol row "type"
  let lcell ← getCol row "length"
  let l ← pyFloat lcell
  let wcell ← getCol row "width"
  let w ← pyFloat wcell
  let acell ← getCol row "area"
  let a ← pyFloat acell
  let ncell ← getCol row "num_rows"
  let n ← pyInt ncell
  let kinds ← match catalog.lookup tcell.text with
    | some ks => Except.ok ks
    | none => Except.error (ImportError.keyError tcell.text)
  let inputs ← parse_inputs row kinds
  pure { type := tcell.text, length := l, width := w, area := a,
         num_rows := n, inputs := inputs }

/-- The loop over `csv.DictReader`: rows are parsed in order into
`imported_data`; the first error aborts the whole loop (the partially
built list is discarded). -/
def parse_rows (catalog : Catalog) : List Row → Except ImportError (List CropRecord)
  | [] => .ok []
  | row :: rest => do
    let c ← parse_row catalog row
    let cs ← parse_rows catalog rest
    pure (c :: cs)

/-- `import_from_csv`: `none` models a path that fails to open
(`FileNotFoundError`).  The global `crop_data` is assigned only after
every row has parsed; on any caught error the function returns with the
store untouched.  Result: the store after the call, and the error
reported, if any. -/
def import_from_csv (catalog : Catalog) (file : Option (List Row))
    (store : List CropRecord) : List CropRecord × Option ImportError :=
  match file with
  | none => (store, some ImportError.fileNotFound)
  | some rows =>
    match parse_rows catalog rows with
    | .ok newData => (newData, none)
    | .error e => (store, some e)

/-- Well-formedness of one record relative to the Input Catalog: its crop
type is a key of the catalog and the keys of its measurements are among
the catalog's declared input kinds for that crop type. -/
abbrev recordWF (catalog : Catalog) (r : CropRecord) : Prop :=
  (catalog.lookup r.type).isSome ∧
    ∀ k ∈ r.inputs.map Prod.fst,
      k ∈ ((catalog.lookup r.type).getD []).map Prod.fst

/-- Well-formedness of a store: every record is well-formed. -/
abbrev storeWF (catalog : Catalog) (store : List CropRecord) : Prop :=
  ∀ r ∈ store, recordWF catalog r

/-- Content equality of two records as claim C1 words it: equal crop type,
dimensions, area and row count, and the same set of present input-kind
measurements with equal values. -/
def recordContentEq (a b : CropRecord) : Prop :=
  a.type = b.type ∧ a.length = b.length ∧ a.width = b.width ∧
    a.area = b.area ∧ a.num_rows = b.num_rows ∧
    ∀ k : String, a.inputs.lookup k = b.inputs.lookup k

/-- The covering condition under which the CSV round trip succeeds: every
record carries a measurement for each catalog kind of its crop type whose
`{kind}_name` column occurs in the export's header.  (A record violating
it is written with empty cells in that kind's numeric columns, which the
importer then feeds to `float`.) -/
abbrev coveringSchema (catalog : Catalog) (store : List CropRecord) : Prop :=
  ∀ r ∈ store, ∀ k ∈ ((catalog.lookup r.type).getD []).map Prod.fst,
    (k ++ "_name") ∈ fieldnames store → k ∈ r.inputs.map Prod.fst

/-- First-occurrence deduplication, used only to state claim C2's
described schema. -/
def dedupFirst (l : List String) : List String :=
  l.foldl (fun acc x => if x ∈ acc then acc else acc ++ [x]) []

/-- The column schema exactly as claim C2 states it: the fixed columns
followed by one group of four columns per input kind in the union,
without duplicates, of kinds present across all records, in
first-encounter order. -/
def fieldnamesClaimed (store : List CropRecord) : List String :=
  ["type", "length", "width", "area", "num_rows"] ++
    (dedupFirst (store.flatMap fun crop => crop.inputs.map Prod.fst)).flatMap fun k =>
      [k ++ "_name", k ++ "_amount_per_ha", k ++ "_total_amount", k ++ "_unit"]

/-- The column schema as the amended claim C2 states it: the fixed columns
followed by, for each record in store order and each input kind present in
that record, its group of four columns — a kind shared by several records
contributes one group per record containing it. -/
def fieldnamesAmended (store : List CropRecord) : List String :=
  ["type", "length", "width", "area", "num_rows"] ++
    store.flatMap fun crop =>
      crop.inputs.flatMap fun ki =>
        [ki.1 ++ "_name", ki.1 ++ "_amount_per_ha",
         ki.1 ++ "_total_amount", ki.1 ++ "_unit"]

/-- Data for the concrete examples: an input-kind description. -/
def sampleInfo : InputInfo := { name := "Nitrogen", unit := "kg" }

/-- A one-crop Input Catalog used by the concrete examples. -/
def sampleCatalog : Catalog := [("Soybean", [("fertilizer", sampleInfo)])]

/-- The fertilizer measurement of the spec's worked example: 200 kg/ha on
half a hectare, total 100. -/
def sampleMeasurement : Measurement :=
  { name := "Nitrogen", amount_per_ha := 200, total_amount := 100, unit := "kg" }

/-- A record that carries the fertilizer input. -/
def sampleFull : CropRecord :=
  { type := "Soybean", length := 100, width := 50, area := 1/2,
    num_rows := 10, inputs := [("fertilizer", sampleMeasurement)] }

/-- A record of the same crop type with no inputs recorded. -/
def sampleBare : CropRecord :=
  { type := "Soybean", length := 30, width := 20, area := 3/50,
    num_rows := 4, inputs := [] }

/-- A concrete CSV row that parses successfully against `sampleCatalog`. -/
def sampleRow : Row :=
  [("type", Cell.str "Soybean"), ("length", Cell.num 100),
   ("width", Cell.num 50), ("area", Cell.num (1/2)),
   ("num_rows", Cell.int 10), ("fertilizer_name", Cell.str "Nitrogen"),
   ("fertilizer_amount_per_ha", Cell.num 200),
   ("fertilizer_total_amount", Cell.num 100),
   ("fertilizer_unit", Cell.str "kg")]

/-! Helper lemmas about strings: the prefixed column names never collide
with the fixed columns or with a column of a different suffix, and equal
suffixes cancel.  All are consequences of comparing characters from the
end of the strings. -/

lemma empty_append_str (t : String) : "" ++ t = t := by
  cases t
  rfl

lemma rev_char_eq {a b s t : String} (h : a ++ s = b ++ t) (i : ℕ)
    (hs : i < s.data.length) (ht : i < t.data.length) :
    s.data.reverse[i]? = t.data.reverse[i]? := by
  have hd : a.data ++ s.data = b.data ++ t.data := by
    rw [← String.data_append, ← String.data_append, h]
  have hr : s.data.reverse ++ a.data.reverse = t.data.reverse ++ b.data.reverse := by
    rw [← List.reverse_append, ← List.reverse_append, hd]
  have hs2 : i < s.data.reverse.length := by simpa using hs
  have ht2 : i < t.data.reverse.length := by simpa using ht
  calc s.data.reverse[i]? = (s.data.reverse ++ a.data.reverse)[i]? :=
        (List.getElem?_append_left hs2).symm
    _ = (t.data.reverse ++ b.data.reverse)[i]? := by rw [hr]
    _ = t.data.reverse[i]? := List.getElem?_append_left ht2

lemma append_str_ne {s t : String} (i : ℕ) (hs : i < s.data.length)
    (ht : i < t.data.length) (hne : s.data.reverse[i]? ≠ t.data.reverse[i]?)
    (a b : String) : a ++ s ≠ b ++ t :=
  fun h => hne (rev_char_eq h i hs ht)

lemma append_lit_ne {s t : String} (i : ℕ) (hs : i < s.data.length)
    (ht : i < t.data.length) (hne : s.data.reverse[i]? ≠ t.data.reverse[i]?)
    (a : String) : a ++ s ≠ t := by
  intro h
  exact append_str_ne i hs ht hne a "" (h.trans (empty_append_str t).symm)

lemma append_right_cancel_str {a b s : String} (h : a ++ s = b ++ s) : a = b := by
  have hd : a.data ++ s.data = b.data ++ s.data := by
    rw [← String.data_append, ← String.data_append, h]
  have h2 := List.append_cancel_right hd
  cases a
  cases b
  exact congrArg String.mk h2

lemma subfield_group (k : String) :
    subfieldKeys.map (fun key => k ++ "_" ++ key) =
      [k ++ "_name", k ++ "_amount_per_ha", k ++ "_total_amount", k ++ "_unit"] := by
  simp only [subfieldKeys, List.map_cons, List.map_nil, List.cons.injEq, and_true]
  refine ⟨?_, ?_, ?_, ?_⟩ <;> (rw [String.append_assoc]; rfl)

/-! Lookup computations on the exporter's row dict. -/

lemma inputCells_cons (km : String × Measurement) (rest : List (String × Measurement)) :
    inputCells (km :: rest)
      = (km.1 ++ "_name", Cell.str km.2.name)
          :: (km.1 ++ "_amount_per_ha", Cell.num km.2.amount_per_ha)
          :: (km.1 ++ "_total_amount", Cell.num km.2.total_amount)
          :: (km.1 ++ "_unit", Cell.str km.2.unit) :: inputCells rest := rfl

lemma inputCells_lookup_name (inputs : List (String × Measurement)) (k : String) :
    (inputCells inputs).lookup (k ++ "_name")
      = (inputs.lookup k).map fun m => Cell.str m.name := by
  induction inputs with
  | nil => rfl
  | cons km rest ih =>
    rw [inputCells_cons]
    by_cases hk : k = km.1
    · rw [hk]
      simp [List.lookup]
    · have d1 : ((k ++ "_name") == (km.1 ++ "_name")) = false :=
        beq_eq_false_iff_ne.mpr fun h => hk (append_right_cancel_str h)
      have d2 : ((k ++ "_name") == (km.1 ++ "_amount_per_ha")) = false :=
        beq_eq_false_iff_ne.mpr
          (append_str_ne 0 (by decide) (by decide) (by decide) k km.1)
      have d3 : ((k ++ "_name") == (km.1 ++ "_total_amount")) = false :=
        beq_eq_false_iff_ne.mpr
          (append_str_ne 0 (by decide) (by decide) (by decide) k km.1)
      have d4 : ((k ++ "_name") == (km.1 ++ "_unit")) = false :=
        beq_eq_false_iff_ne.mpr
          (append_str_ne 0 (by decide) (by decide) (by decide) k km.1)
      have d5 : (k == km.1) = false := beq_eq_false_iff_ne.mpr hk
      simp only [List.lookup, d1, d2, d3, d4, d5, ih]

lemma inputCells_lookup_ap (inputs : List (String × Measurement)) (k : String) :
    (inputCells inputs).lookup (k ++ "_amount_per_ha")
      = (inputs.lookup k).map fun m => Cell.num m.amount_per_ha := by
  induction inputs with
  | nil => rfl
  | cons km rest ih =>
    rw [inputCells_cons]
    by_cases hk : k = km.1
    · have d1 : ((km.1 ++ "_amount_per_ha") == (km.1 ++ "_name")) = false :=
        beq_eq_false_iff_ne.mpr
          (append_str_ne 0 (by decide) (by decide) (by decide) km.1 km.1)
      rw [hk]
      simp [List.lookup, d1]
    · have d1 : ((k ++ "_amount_per_ha") == (km.1 ++ "_name")) = false :=
        beq_eq_false_iff_ne.mpr
          (append_str_ne 0 (by decide) (by decide) (by decide) k km.1)
      have d2 : ((k ++ "_amount_per_ha") == (km.1 ++ "_amount_per_ha")) = false :=
        beq_eq_false_iff_ne.mpr fun h => hk (append_right_cancel_str h)
      have d3 : ((k ++ "_amount_per_ha") == (km.1 ++ "_total_amount")) = false :=
        beq_eq_false_iff_ne.mpr
          (append_str_ne 0 (by decide) (by decide) (by decide) k km.1)
      have d4 : ((k ++ "_amount_per_ha") == (km.1 ++ "_unit")) = false :=
        beq_eq_false_iff_ne.mpr
          (append_str_ne 0 (by decide) (by decide) (by decide) k km.1)
      have d5 : (k == km.1) = false := beq_eq_false_iff_ne.mpr hk
      simp only [List.lookup, d1, d2, d3, d4, d5, ih]

lemma inputCells_lookup_ta (inputs : List (String × Measurement)) (k : String) :
    (inputCells inputs).lookup (k ++ "_total_amount")
      = (inputs.lookup k).map fun m => Cell.num m.total_amount := by
  induction inputs with
  | nil => rfl
  | cons km rest ih =>
    rw [inputCells_cons]
    by_cases hk : k = km.1
    · have d1 : ((km.1 ++ "_total_amount") == (km.1 ++ "_name")) = false :=
        beq_eq_false_iff_ne.mpr
          (append_str_ne 0 (by decide) (by decide) (by decide) km.1 km.1)
      have d2 : ((km.1 ++ "_total_amount") == (km.1 ++ "_amount_per_ha")) = false :=
        beq_eq_false_iff_ne.mpr
          (append_str_ne 0 (by decide) (by decide) (by decide) km.1 km.1)
      rw [hk]
      simp [List.lookup, d1, d2]
    · have d1 : ((k ++ "_total_amount") == (km.1 ++ "_name")) = false :=
        beq_eq_false_iff_ne.mpr
          (append_str_ne 0 (by decide) (by decide) (by decide) k km.1)
      have d2 : ((k ++ "_total_amount") == (km.1 ++ "_amount_per_ha")) = false :=
        beq_eq_false_iff_ne.mpr
          (append_str_ne 0 (by decide) (by decide) (by decide) k km.1)
      have d3 : ((k ++ "_total_amount") == (km.1 ++ "_total_amount")) = false :=
        beq_eq_false_iff_ne.mpr fun h => hk (append_right_cancel_str h)
      have d4 : ((k ++ "_total_amount") == (km.1 ++ "_unit")) = false :=
        beq_eq_false_iff_ne.mpr
          (append_str_ne 1 (by decide) (by decide) (by decide) k km.1)
      have d5 : (k == km.1) = false := beq_eq_false_iff_ne.mpr hk
      simp only [List.lookup, d1, d2, d3, d4, d5, ih]

lemma inputCells_lookup_unit (inputs : List (String × Measurement)) (k : String) :
    (inputCells inputs).lookup (k ++ "_unit")
      = (inputs.lookup k).map fun m => Cell.str m.unit := by
  induction inputs with
  | nil => rfl
  | cons km rest ih =>
    rw [inputCells_cons]
    by_cases hk : k = km.1
    · have d1 : ((km.1 ++ "_unit") == (km.1 ++ "_name")) = false :=
        beq_eq_false_iff_ne.mpr
          (append_str_ne 0 (by decide) (by decide) (by decide) km.1 km.1)
      have d2 : ((km.1 ++ "_unit") == (km.1 ++ "_amount_per_ha")) = false :=
        beq_eq_false_iff_ne.mpr
          (append_str_ne 0 (by decide) (by decide) (by decide) km.1 km.1)
      have d3 : ((km.1 ++ "_unit") == (km.1 ++ "_total_amount")) = false :=
        beq_eq_false_iff_ne.mpr
          (append_str_ne 1 (by decide) (by decide) (by decide) km.1 km.1)
      rw [hk]
      simp [List.lookup, d1, d2, d3]
    · have d1 : ((k ++ "_unit") == (km.1 ++ "_name")) = false :=
        beq_eq_false_iff_ne.mpr
          (append_str_ne 0 (by decide) (by decide) (by decide) k km.1)
      have d2 : ((k ++ "_unit") == (km.1 ++ "_amount_per_ha")) = false :=
        beq_eq_false_iff_ne.mpr
          (append_str_ne 0 (by decide) (by decide) (by decide) k km.1)
      have d3 : ((k ++ "_unit") == (km.1 ++ "_total_amount")) = false :=
        beq_eq_false_iff_ne.mpr
          (append_str_ne 1 (by decide) (by decide) (by decide) k km.1)
      have d4 : ((k ++ "_unit") == (km.1 ++ "_unit")) = false :=
        beq_eq_false_iff_ne.mpr fun h => hk (append_right_cancel_str h)
      have d5 : (k == km.1) = false := beq_eq_false_iff_ne.mpr hk
      simp only [List.lookup, d1, d2, d3, d4, d5, ih]

lemma rowDict_lookup_name (r : CropRecord) (k : String) :
    (rowDict r).lookup (k ++ "_name")
      = (r.inputs.lookup k).map fun m => Cell.str m.name := by
  have h1 : ((k ++ "_name") == "type") = false :=
    beq_eq_false_iff_ne.mpr (append_lit_ne 1 (by decide) (by decide) (by decide) k)
  have h2 : ((k ++ "_name") == "length") = false :=
    beq_eq_false_iff_ne.mpr (append_lit_ne 0 (by decide) (by decide) (by decide) k)
  have h3 : ((k ++ "_name") == "width") = false :=
    beq_eq_false_iff_ne.mpr (append_lit_ne 0 (by decide) (by decide) (by decide) k)
  have h4 : ((k ++ "_name") == "area") = false :=
    beq_eq_false_iff_ne.mpr (append_lit_ne 0 (by decide) (by decide) (by decide) k)
  have h5 : ((k ++ "_name") == "num_rows") = false :=
    beq_eq_false_iff_ne.mpr (append_lit_ne 0 (by decide) (by decide) (by decide) k)
  simp [rowDict, List.lookup, h1, h2, h3, h4, h5, inputCells_lookup_name]

lemma rowDict_lookup_ap (r : CropRecord) (k : String) :
    (rowDict r).lookup (k ++ "_amount_per_ha")
      = (r.inputs.lookup k).map fun m => Cell.num m.amount_per_ha := by
  have h1 : ((k ++ "_amount_per_ha") == "type") = false :=
    beq_eq_false_iff_ne.mpr (append_lit_ne 0 (by decide) (by decide) (by decide) k)
  have h2 : ((k ++ "_amount_per_ha") == "length") = false :=
    beq_eq_false_iff_ne.mpr (append_lit_ne 0 (by decide) (by decide) (by decide) k)
  have h3 : ((k ++ "_amount_per_ha") == "width") = false :=
    beq_eq_false_iff_ne.mpr (append_lit_ne 0 (by decide) (by decide) (by decide) k)
  have h4 : ((k ++ "_amount_per_ha") == "area") = false :=
    beq_eq_false_iff_ne.mpr (append_lit_ne 1 (by decide) (by decide) (by decide) k)
  have h5 : ((k ++ "_amount_per_ha") == "num_rows") = false :=
    beq_eq_false_iff_ne.mpr (append_lit_ne 0 (by decide) (by decide) (by decide) k)
  simp [rowDict, List.lookup, h1, h2, h3, h4, h5, inputCells_lookup_ap]

lemma rowDict_lookup_ta (r : CropRecord) (k : String) :
    (rowDict r).lookup (k ++ "_total_amount")
      = (r.inputs.lookup k).map fun m => Cell.num m.total_amount := by
  have h1 : ((k ++ "_total_amount") == "type") = false :=
    beq_eq_false_iff_ne.mpr (append_lit_ne 0 (by decide) (by decide) (by decide) k)
  have h2 : ((k ++ "_total_amount") == "length") = false :=
    beq_eq_false_iff_ne.mpr (append_lit_ne 0 (by decide) (by decide) (by decide) k)
  have h3 : ((k ++ "_total_amount") == "width") = false :=
    beq_eq_false_iff_ne.mpr (append_lit_ne 0 (by decide) (by decide) (by decide) k)
  have h4 : ((k ++ "_total_amount") == "area") = false :=
    beq_eq_false_iff_ne.mpr (append_lit_ne 0 (by decide) (by decide) (by decide) k)
  have h5 : ((k ++ "_total_amount") == "num_rows") = false :=
    beq_eq_false_iff_ne.mpr (append_lit_ne 0 (by decide) (by decide) (by decide) k)
  simp [rowDict, List.lookup, h1, h2, h3, h4, h5, inputCells_lookup_ta]

lemma rowDict_lookup_unit (r : CropRecord) (k : String) :
    (rowDict r).lookup (k ++ "_unit")
      = (r.inputs.lookup k).map fun m => Cell.str m.unit := by
  have h1 : ((k ++ "_unit") == "type") = false :=
    beq_eq_false_iff_ne.mpr (append_lit_ne 0 (by decide) (by decide) (by decide) k)
  have h2 : ((k ++ "_unit") == "length") = false :=
    beq_eq_false_iff_ne.mpr (append_lit_ne 0 (by decide) (by decide) (by decide) k)
  have h3 : ((k ++ "_unit") == "width") = false :=
    beq_eq_false_iff_ne.mpr (append_lit_ne 1 (by decide) (by decide) (by decide) k)
  have h4 : ((k ++ "_unit") == "area") = false :=
    beq_eq_false_iff_ne.mpr (append_lit_ne 0 (by decide) (by decide) (by decide) k)
  have h5 : ((k ++ "_unit") == "num_rows") = false :=
    beq_eq_false_iff_ne.mpr (append_lit_ne 0 (by decide) (by decide) (by decide) k)
  simp [rowDict, List.lookup, h1, h2, h3, h4, h5, inputCells_lookup_unit]

lemma cellFor_type (r : CropRecord) : cellFor r "type" = Cell.str r.type := rfl

lemma cellFor_length (r : CropRecord) : cellFor r "length" = Cell.num r.length := rfl

lemma cellFor_width (r : CropRecord) : cellFor r "width" = Cell.num r.width := rfl

lemma cellFor_area (r : CropRecord) : cellFor r "area" = Cell.num r.area := rfl

lemma cellFor_num_rows (r : CropRecord) : cellFor r "num_rows" = Cell.int r.num_rows := rfl

/-! Reading back the exporter's rows. -/

lemma zip_writeRow (fns : List String) (r : CropRecord) :
    fns.zip (writeRow fns r) = fns.map fun c => (c, cellFor r c) := by
  unfold writeRow
  induction fns with
  | nil => rfl
  | cons c rest ih => simp [ih]

lemma lookupLast_map (f : String → Cell) (fns : List String) (c : String) :
    lookupLast c (fns.map fun x => (x, f x))
      = if c ∈ fns then some (f c) else none := by
  induction fns with
  | nil => simp [lookupLast]
  | cons x rest ih =>
    simp only [List.map_cons, lookupLast, ih]
    by_cases hc : c ∈ rest
    · simp [hc]
    · by_cases hx : x = c
      · subst hx
        simp [hc]
      · have hx2 : ¬ c = x := fun h => hx h.symm
        simp [hc, hx, hx2]

lemma lookupLast_export (fns : List String) (r : CropRecord) (c : String) :
    lookupLast c (fns.zip (writeRow fns r))
      = if c ∈ fns then some (cellFor r c) else none := by
  rw [zip_writeRow, lookupLast_map]

lemma getCol_export (fns : List String) (r : CropRecord) (c : String) (h : c ∈ fns) :
    getCol (fns.zip (writeRow fns r)) c = Except.ok (cellFor r c) := by
  unfold getCol
  rw [lookupLast_export, if_pos h]

/-! Inversion of the importer's `Except` chains. -/

lemma bind_ok_iff {α β : Type} (x : Except ImportError α)
    (f : α → Except ImportError β) (b : β) :
    (x >>= f) = Except.ok b ↔ ∃ a, x = Except.ok a ∧ f a = Except.ok b := by
  cases x <;> simp [Bind.bind, Except.bind]

lemma parse_row_ok_elim {catalog : Catalog} {row : Row} {r : CropRecord}
    (h : parse_row catalog row = Except.ok r) :
    ∃ tcell kinds, getCol row "type" = Except.ok tcell ∧
      r.type = tcell.text ∧
      catalog.lookup tcell.text = some kinds ∧
      parse_inputs row kinds = Except.ok r.inputs := by
  unfold parse_row at h
  simp only [bind_ok_iff] at h
  obtain ⟨tcell, ht, lcell, hlc, l, hl, wcell, hwc, w, hw, acell, hac, a, ha,
    ncell, hnc, n, hn, hm⟩ := h
  cases hml : List.lookup tcell.text catalog with
  | none =>
    rw [hml] at hm
    simp [Bind.bind, Except.bind] at hm
  | some ks =>
    rw [hml] at hm
    simp only [bind_ok_iff] at hm
    obtain ⟨ks2, hks2, inputs, hinp, hpure⟩ := hm
    simp only [Except.ok.injEq] at hks2
    subst hks2
    simp only [pure, Except.pure, Except.ok.injEq] at hpure
    subst hpure
    exact ⟨tcell, ks, ht, rfl, hml, hinp⟩

lemma parse_inputs_keys {row : Row} {kinds : List (String × InputInfo)}
    {L : List (String × Measurement)} (h : parse_inputs row kinds = Except.ok L) :
    ∀ km ∈ L, km.1 ∈ kinds.map Prod.fst := by
  induction kinds generalizing L with
  | nil =>
    unfold parse_inputs at h
    simp only [Except.ok.injEq] at h
    subst h
    simp
  | cons ki rest ih =>
    unfold parse_inputs at h
    by_cases hp : (lookupLast (ki.1 ++ "_name") row).isSome
    · rw [if_pos hp] at h
      simp only [bind_ok_iff] at h
      obtain ⟨m, hm, tail, htail, hpure⟩ := h
      simp only [pure, Except.pure, Except.ok.injEq] at hpure
      subst hpure
      intro km hkm
      rcases List.mem_cons.mp hkm with h1 | h1
      · subst h1
        simp
      · simp only [List.map_cons, List.mem_cons]
        exact Or.inr (ih htail km h1)
    · rw [if_neg hp] at h
      intro km hkm
      simp only [List.map_cons, List.mem_cons]
      exact Or.inr (ih h km hkm)

lemma parse_inputs_lookup {row : Row} {kinds : List (String × InputInfo)}
    {L : List (String × Measurement)} (h : parse_inputs row kinds = Except.ok L)
    (k : String) :
    ((k ∈ kinds.map Prod.fst ∧ (lookupLast (k ++ "_name") row).isSome) →
      ∃ m, builtMeasurement row k = Except.ok m ∧ L.lookup k = some m) ∧
    (¬(k ∈ kinds.map Prod.fst ∧ (lookupLast (k ++ "_name") row).isSome) →
      L.lookup k = none) := by
  induction kinds generalizing L with
  | nil =>
    unfold parse_inputs at h
    simp only [Except.ok.injEq] at h
    subst h
    exact ⟨fun hc => absurd hc.1 (by simp), fun _ => rfl⟩
  | cons ki rest ih =>
    unfold parse_inputs at h
    by_cases hp : (lookupLast (ki.1 ++ "_name") row).isSome
    · rw [if_pos hp] at h
      simp only [bind_ok_iff] at h
      obtain ⟨m, hm, tail, htail, hpure⟩ := h
      simp only [pure, Except.pure, Except.ok.injEq] at hpure
      subst hpure
      by_cases hk : k = ki.1
      · subst hk
        refine ⟨fun _ => ⟨m, hm, by simp [List.lookup]⟩,
                fun hc => absurd ⟨by simp, hp⟩ hc⟩
      · have d5 : (k == ki.1) = false := beq_eq_false_iff_ne.mpr hk
        have hcl : ((ki.1, m) :: tail).lookup k = tail.lookup k := by
          simp [List.lookup, d5]
        constructor
        · intro hc
          have hmem0 : k ∈ ki.1 :: rest.map Prod.fst := by
            simpa only [List.map_cons] using hc.1
          have hmem2 : k ∈ rest.map Prod.fst := by
            rcases List.mem_cons.mp hmem0 with h1 | h1
            · exact absurd h1 hk
            · exact h1
          obtain ⟨m2, hm2, hl2⟩ := (ih htail).1 ⟨hmem2, hc.2⟩
          exact ⟨m2, hm2, by rw [hcl, hl2]⟩
        · intro hc
          rw [hcl]
          refine (ih htail).2 fun hc2 => hc ⟨by simp [hc2.1], hc2.2⟩
    · rw [if_neg hp] at h
      by_cases hk : k = ki.1
      · subst hk
        refine ⟨fun hc => absurd hc.2 hp, fun _ => ?_⟩
        exact (ih h).2 fun hc2 => hp hc2.2
      · constructor
        · intro hc
          have hmem0 : k ∈ ki.1 :: rest.map Prod.fst := by
            simpa only [List.map_cons] using hc.1
          have hmem2 : k ∈ rest.map Prod.fst := by
            rcases List.mem_cons.mp hmem0 with h1 | h1
            · exact absurd h1 hk
            · exact h1
          exact (ih h).1 ⟨hmem2, hc.2⟩
        · intro hc
          refine (ih h).2 fun hc2 => hc ⟨by simp [hc2.1], hc2.2⟩

/-! Association-list facts mirroring Python dict membership. -/

lemma lookup_isSome_of_mem {β : Type} (l : List (String × β)) (k : String)
    (h : k ∈ l.map Prod.fst) : (l.lookup k).isSome := by
  induction l with
  | nil => simp at h
  | cons kv rest ih =>
    by_cases hk : k = kv.1
    · subst hk
      simp [List.lookup]
    · simp only [List.map_cons, List.mem_cons] at h
      rcases h with h | h
      · exact absurd h hk
      · simp [List.lookup, beq_eq_false_iff_ne.mpr hk, ih h]

lemma lookup_eq_none_of_not_mem {β : Type} (l : List (String × β)) (k : String)
    (h : k ∉ l.map Prod.fst) : l.lookup k = none := by
  induction l with
  | nil => rfl
  | cons kv rest ih =>
    simp only [List.map_cons, List.mem_cons, not_or] at h
    simp [List.lookup, beq_eq_false_iff_ne.mpr h.1, ih h.2]

/-! Well-formedness of the records each operation constructs. -/

lemma new_record_wf (catalog : Catalog) (choice : Fin catalog.length)
    (flength fwidth : ℚ) (nrows : ℤ) (amounts : String → ℚ) :
    recordWF catalog (new_record catalog choice flength fwidth nrows amounts) := by
  have hty : (new_record catalog choice flength fwidth nrows amounts).type
      = (catalog.get choice).1 := rfl
  constructor
  · rw [hty]
    exact lookup_isSome_of_mem catalog _
      (List.mem_map.mpr ⟨catalog.get choice, List.get_mem catalog choice.1 choice.2, rfl⟩)
  · intro k hk
    rw [hty]
    obtain ⟨p, hp, hfst⟩ := List.mem_map.mp hk
    obtain ⟨ki, hki, hpi⟩ := List.mem_filterMap.mp hp
    by_cases hc : 0 < amounts ki.1
    · rw [if_pos hc] at hpi
      simp only [Option.some.injEq] at hpi
      rw [← hpi] at hfst
      simp only at hfst
      rw [← hfst]
      exact List.mem_map.mpr ⟨ki, hki, rfl⟩
    · rw [if_neg hc] at hpi
      exact absurd hpi (by simp)

lemma parse_row_wf {catalog : Catalog} {row : Row} {r : CropRecord}
    (h : parse_row catalog row = Except.ok r) : recordWF catalog r := by
  obtain ⟨tcell, kinds, ht, hty, hml, hinp⟩ := parse_row_ok_elim h
  constructor
  · rw [hty, hml]
    rfl
  · intro k hk
    rw [hty, hml]
    simp only [Option.getD_some]
    obtain ⟨km, hkm, hfst⟩ := List.mem_map.mp hk
    rw [← hfst]
    exact parse_inputs_keys hinp km hkm

lemma parse_rows_wf {catalog : Catalog} {rows : List Row} {L : List CropRecord}
    (h : parse_rows catalog rows = Except.ok L) : storeWF catalog L := by
  induction rows generalizing L with
  | nil =>
    unfold parse_rows at h
    simp only [Except.ok.injEq] at h
    subst h
    intro r hr
    simp at hr
  | cons row rest ih =>
    unfold parse_rows at h
    simp only [bind_ok_iff] at h
    obtain ⟨c, hc, cs, hcs, hpure⟩ := h
    simp only [pure, Except.pure, Except.ok.injEq] at hpure
    subst hpure
    intro r hr
    rcases List.mem_cons.mp hr with h1 | h1
    · rw [h1]
      exact parse_row_wf hc
    · exact ih hcs r h1

/-! Case analyses of the mutators, shared by the invariant proof. -/

lemma update_crop_data_cases (catalog : Catalog) (index : ℤ)
    (choice : Fin catalog.length) (flength fwidth : ℚ) (nrows : ℤ)
    (amounts : String → ℚ) (store : List CropRecord) :
    (update_crop_data catalog index choice flength fwidth nrows amounts store).1 = store ∨
    (update_crop_data catalog index choice flength fwidth nrows amounts store).1
      = store.set (index - 1).toNat
          (new_record catalog choice flength fwidth nrows amounts) := by
  cases hse : store.isEmpty with
  | true =>
    left
    unfold update_crop_data
    rw [hse]
    rfl
  | false =>
    by_cases hcond : 0 ≤ index - 1 ∧ index - 1 < (store.length : ℤ)
    · right
      unfold update_crop_data
      rw [hse]
      simp only [Bool.false_eq_true, if_false, if_pos hcond]
      simp [input_crop_data, List.getLastD_concat]
    · left
      unfold update_crop_data
      rw [hse]
      simp only [Bool.false_eq_true, if_false, if_neg hcond]

lemma delete_crop_data_cases (index : ℤ) (store : List CropRecord) :
    (delete_crop_data index store).1 = store ∨
    (delete_crop_data index store).1 = store.eraseIdx (index - 1).toNat := by
  cases hse : store.isEmpty with
  | true =>
    left
    unfold delete_crop_data
    rw [hse]
    rfl
  | false =>
    by_cases hcond : 0 ≤ index - 1 ∧ index - 1 < (store.length : ℤ)
    · right
      unfold delete_crop_data
      rw [hse]
      simp only [Bool.false_eq_true, if_false, if_pos hcond]
    · left
      unfold delete_crop_data
      rw [hse]
      simp only [Bool.false_eq_true, if_false, if_neg hcond]

/-! Membership facts about the computed header. -/

lemma type_mem_fieldnames (store : List CropRecord) : "type" ∈ fieldnames store := by
  simp [fieldnames]

lemma length_mem_fieldnames (store : List CropRecord) : "length" ∈ fieldnames store := by
  simp [fieldnames]

lemma width_mem_fieldnames (store : List CropRecord) : "width" ∈ fieldnames store := by
  simp [fieldnames]

lemma area_mem_fieldnames (store : List CropRecord) : "area" ∈ fieldnames store := by
  simp [fieldnames]

lemma num_rows_mem_fieldnames (store : List CropRecord) : "num_rows" ∈ fieldnames store := by
  simp [fieldnames]

lemma name_col_mem_fieldnames {store : List CropRecord} {r : CropRecord}
    (hr : r ∈ store) {k : String} (hk : k ∈ r.inputs.map Prod.fst) :
    (k ++ "_name") ∈ fieldnames store := by
  unfold fieldnames
  refine List.mem_append_right _ ?_
  rw [List.mem_flatMap]
  refine ⟨r, hr, ?_⟩
  rw [List.mem_flatMap]
  obtain ⟨ki, hki, hfst⟩ := List.mem_map.mp hk
  refine ⟨ki, hki, ?_⟩
  rw [subfield_group, hfst]
  simp

lemma fieldnames_closure {store : List CropRecord} {k : String}
    (h : (k ++ "_name") ∈ fieldnames store) :
    (k ++ "_amount_per_ha") ∈ fieldnames store ∧
    (k ++ "_total_amount") ∈ fieldnames store ∧
    (k ++ "_unit") ∈ fieldnames store := by
  unfold fieldnames at h
  rcases List.mem_append.mp h with hfix | hdyn
  · exfalso
    simp only [List.mem_cons, List.not_mem_nil, or_false] at hfix
    rcases hfix with h1 | h1 | h1 | h1 | h1
    · exact append_lit_ne 1 (by decide) (by decide) (by decide) k h1
    · exact append_lit_ne 0 (by decide) (by decide) (by decide) k h1
    · exact append_lit_ne 0 (by decide) (by decide) (by decide) k h1
    · exact append_lit_ne 0 (by decide) (by decide) (by decide) k h1
    · exact append_lit_ne 0 (by decide) (by decide) (by decide) k h1
  · rw [List.mem_flatMap] at hdyn
    obtain ⟨crop, hcrop, hin⟩ := hdyn
    rw [List.mem_flatMap] at hin
    obtain ⟨ki, hki, hmem⟩ := hin
    rw [subfield_group] at hmem
    simp only [List.mem_cons, List.not_mem_nil, or_false] at hmem
    have hgroup : ∀ c ∈ [ki.1 ++ "_amount_per_ha", ki.1 ++ "_total_amount", ki.1 ++ "_unit"],
        c ∈ fieldnames store := by
      intro c hc
      unfold fieldnames
      refine List.mem_append_right _ ?_
      rw [List.mem_flatMap]
      refine ⟨crop, hcrop, ?_⟩
      rw [List.mem_flatMap]
      refine ⟨ki, hki, ?_⟩
      rw [subfield_group]
      simp only [List.mem_cons, List.not_mem_nil, or_false] at hc ⊢
      rcases hc with h2 | h2 | h2 <;> simp [h2]
    rcases hmem with h1 | h1 | h1 | h1
    · have hkk : k = ki.1 := append_right_cancel_str h1
      subst hkk
      exact ⟨hgroup _ (by simp), hgroup _ (by simp), hgroup _ (by simp)⟩
    · exact absurd h1 (append_str_ne 0 (by decide) (by decide) (by decide) k ki.1)
    · exact absurd h1 (append_str_ne 0 (by decide) (by decide) (by decide) k ki.1)
    · exact absurd h1 (append_str_ne 0 (by decide) (by decide) (by decide) k ki.1)

/-! Parsing the exporter's own rows. -/

lemma pyFloat_cases (c : Cell) :
    (∃ q, pyFloat c = Except.ok q) ∨ pyFloat c = Except.error ImportError.valueError := by
  cases c <;> simp [pyFloat]

lemma builtMeasurement_export {fns : List String} {r : CropRecord} {k : String}
    (hname : (k ++ "_name") ∈ fns) (hap : (k ++ "_amount_per_ha") ∈ fns)
    (hta : (k ++ "_total_amount") ∈ fns) (hunit : (k ++ "_unit") ∈ fns)
    {m : Measurement} (hm : r.inputs.lookup k = some m) :
    builtMeasurement (fns.zip (writeRow fns r)) k = Except.ok m := by
  have c1 : cellFor r (k ++ "_name") = Cell.str m.name := by
    unfold cellFor
    rw [rowDict_lookup_name, hm]
    rfl
  have c2 : cellFor r (k ++ "_amount_per_ha") = Cell.num m.amount_per_ha := by
    unfold cellFor
    rw [rowDict_lookup_ap, hm]
    rfl
  have c3 : cellFor r (k ++ "_total_amount") = Cell.num m.total_amount := by
    unfold cellFor
    rw [rowDict_lookup_ta, hm]
    rfl
  have c4 : cellFor r (k ++ "_unit") = Cell.str m.unit := by
    unfold cellFor
    rw [rowDict_lookup_unit, hm]
    rfl
  unfold builtMeasurement
  rw [getCol_export fns r _ hname, getCol_export fns r _ hap,
      getCol_export fns r _ hta, getCol_export fns r _ hunit, c1, c2, c3, c4]
  simp [Bind.bind, Except.bind, pyFloat, pure, Except.pure, Cell.text]

lemma builtMeasurement_export_fail {fns : List String} {r : CropRecord} {k : String}
    (hname : (k ++ "_name") ∈ fns) (hap : (k ++ "_amount_per_ha") ∈ fns)
    (habs : r.inputs.lookup k = none) :
    builtMeasurement (fns.zip (writeRow fns r)) k
      = Except.error ImportError.valueError := by
  have c2 : cellFor r (k ++ "_amount_per_ha") = Cell.empty := by
    unfold cellFor
    rw [rowDict_lookup_ap, habs]
    rfl
  unfold builtMeasurement
  rw [getCol_export fns r _ hname, getCol_export fns r _ hap, c2]
  simp [Bind.bind, Except.bind, pyFloat]

lemma builtMeasurement_export_cases {fns : List String} (r : CropRecord) {k : String}
    (hname : (k ++ "_name") ∈ fns) (hap : (k ++ "_amount_per_ha") ∈ fns)
    (hta : (k ++ "_total_amount") ∈ fns) (hunit : (k ++ "_unit") ∈ fns) :
    (∃ m, builtMeasurement (fns.zip (writeRow fns r)) k = Except.ok m) ∨
    builtMeasurement (fns.zip (writeRow fns r)) k
      = Except.error ImportError.valueError := by
  unfold builtMeasurement
  rw [getCol_export fns r _ hname, getCol_export fns r _ hap,
      getCol_export fns r _ hta, getCol_export fns r _ hunit]
  rcases pyFloat_cases (cellFor r (k ++ "_amount_per_ha")) with ⟨ap, hc2⟩ | hc2 <;>
    rcases pyFloat_cases (cellFor r (k ++ "_total_amount")) with ⟨ta, hc3⟩ | hc3 <;>
      simp [Bind.bind, Except.bind, hc2, hc3, pure, Except.pure]

lemma parse_row_export_eq {catalog : Catalog} {fns : List String} {r : CropRecord}
    (hty : "type" ∈ fns) (hlen : "length" ∈ fns) (hwid : "width" ∈ fns)
    (har : "area" ∈ fns) (hnr : "num_rows" ∈ fns)
    {kinds : List (String × InputInfo)}
    (hkinds : catalog.lookup r.type = some kinds) :
    parse_row catalog (fns.zip (writeRow fns r))
      = (parse_inputs (fns.zip (writeRow fns r)) kinds).map fun L =>
          { type := r.type, length := r.length, width := r.width, area := r.area,
            num_rows := r.num_rows, inputs := L } := by
  unfold parse_row
  rw [getCol_export fns r _ hty, getCol_export fns r _ hlen, getCol_export fns r _ hwid,
      getCol_export fns r _ har, getCol_export fns r _ hnr,
      cellFor_type, cellFor_length, cellFor_width, cellFor_area, cellFor_num_rows]
  cases hpi : parse_inputs (fns.zip (writeRow fns r)) kinds <;>
    simp [Bind.bind, Except.bind, pyFloat, pyInt, Cell.text, hkinds, hpi,
      pure, Except.pure, Except.map]

lemma lookupLast_export_isSome {fns : List String} {r : CropRecord} {c : String}
    (h : c ∈ fns) : (lookupLast c (fns.zip (writeRow fns r))).isSome := by
  rw [lookupLast_export, if_pos h]
  rfl

lemma lookupLast_export_isNone {fns : List String} {r : CropRecord} {c : String}
    (h : c ∉ fns) : ¬ (lookupLast c (fns.zip (writeRow fns r))).isSome = true := by
  rw [lookupLast_export, if_neg h]
  simp

lemma parse_inputs_export {fns : List String} {r : CropRecord}
    (hgrp : ∀ k : String, (k ++ "_name") ∈ fns →
      (k ++ "_amount_per_ha") ∈ fns ∧ (k ++ "_total_amount") ∈ fns ∧
        (k ++ "_unit") ∈ fns)
    (kinds : List (String × InputInfo))
    (hcov : ∀ ki ∈ kinds, (ki.1 ++ "_name") ∈ fns → ki.1 ∈ r.inputs.map Prod.fst) :
    ∃ L, parse_inputs (fns.zip (writeRow fns r)) kinds = Except.ok L ∧
      ∀ k : String,
        L.lookup k = if k ∈ kinds.map Prod.fst ∧ (k ++ "_name") ∈ fns
          then r.inputs.lookup k else none := by
  induction kinds with
  | nil => exact ⟨[], rfl, fun k => by simp⟩
  | cons ki rest ih =>
    obtain ⟨L, hL, hlook⟩ := ih fun ki2 h2 hn => hcov ki2 (List.mem_cons_of_mem _ h2) hn
    by_cases hname : (ki.1 ++ "_name") ∈ fns
    · have hin : ki.1 ∈ r.inputs.map Prod.fst :=
        hcov ki (List.mem_cons_self _ _) hname
      obtain ⟨m, hm⟩ := Option.isSome_iff_exists.mp (lookup_isSome_of_mem _ _ hin)
      obtain ⟨hap, hta, hunit⟩ := hgrp ki.1 hname
      have hbuilt := builtMeasurement_export hname hap hta hunit hm
      refine ⟨(ki.1, m) :: L, ?_, ?_⟩
      · unfold parse_inputs
        rw [if_pos (lookupLast_export_isSome hname), hbuilt, hL]
        simp [Bind.bind, Except.bind, pure, Except.pure]
      · intro k
        by_cases hk : k = ki.1
        · subst hk
          have hcond : ki.1 ∈ (ki :: rest).map Prod.fst ∧ (ki.1 ++ "_name") ∈ fns :=
            ⟨by simp, hname⟩
          rw [if_pos hcond, hm]
          simp [List.lookup]
        · have d5 : (k == ki.1) = false := beq_eq_false_iff_ne.mpr hk
          simp only [List.lookup, d5]
          rw [hlook k]
          by_cases hmem : k ∈ rest.map Prod.fst <;>
            by_cases hn2 : (k ++ "_name") ∈ fns <;>
              simp [hmem, hn2, hk, List.map_cons]
    · refine ⟨L, ?_, ?_⟩
      · unfold parse_inputs
        rw [if_neg (lookupLast_export_isNone hname)]
        exact hL
      · intro k
        rw [hlook k]
        by_cases hk : k = ki.1
        · subst hk
          rw [if_neg fun hc => hname hc.2, if_neg fun hc => hname hc.2]
        · by_cases hmem : k ∈ rest.map Prod.fst <;>
            by_cases hn2 : (k ++ "_name") ∈ fns <;>
              simp [hmem, hn2, hk, List.map_cons]

lemma parse_inputs_export_cases {fns : List String} (r : CropRecord)
    (hgrp : ∀ k : String, (k ++ "_name") ∈ fns →
      (k ++ "_amount_per_ha") ∈ fns ∧ (k ++ "_total_amount") ∈ fns ∧
        (k ++ "_unit") ∈ fns)
    (kinds : List (String × InputInfo)) :
    (∃ L, parse_inputs (fns.zip (writeRow fns r)) kinds = Except.ok L) ∨
    parse_inputs (fns.zip (writeRow fns r)) kinds
      = Except.error ImportError.valueError := by
  induction kinds with
  | nil => exact Or.inl ⟨[], rfl⟩
  | cons ki rest ih =>
    unfold parse_inputs
    by_cases hname : (ki.1 ++ "_name") ∈ fns
    · rw [if_pos (lookupLast_export_isSome hname)]
      obtain ⟨hap, hta, hunit⟩ := hgrp ki.1 hname
      rcases builtMeasurement_export_cases r hname hap hta hunit with ⟨m, hbm⟩ | hbm
      · rcases ih with ⟨L, hL⟩ | hE
        · exact Or.inl ⟨(ki.1, m) :: L,
            by rw [hbm, hL]; simp [Bind.bind, Except.bind, pure, Except.pure]⟩
        · exact Or.inr (by rw [hbm, hE]; simp [Bind.bind, Except.bind])
      · exact Or.inr (by rw [hbm]; simp [Bind.bind, Except.bind])
    · rw [if_neg (lookupLast_export_isNone hname)]
      exact ih

lemma parse_inputs_export_fail {fns : List String} {r : CropRecord}
    (hgrp : ∀ k : String, (k ++ "_name") ∈ fns →
      (k ++ "_amount_per_ha") ∈ fns ∧ (k ++ "_total_amount") ∈ fns ∧
        (k ++ "_unit") ∈ fns)
    {kinds : List (String × InputInfo)} {k : String}
    (hk : k ∈ kinds.map Prod.fst) (hname : (k ++ "_name") ∈ fns)
    (habs : k ∉ r.inputs.map Prod.fst) :
    parse_inputs (fns.zip (writeRow fns r)) kinds
      = Except.error ImportError.valueError := by
  induction kinds with
  | nil => simp at hk
  | cons ki rest ih =>
    unfold parse_inputs
    by_cases hki : ki.1 = k
    · rw [if_pos (lookupLast_export_isSome
        (show (ki.1 ++ "_name") ∈ fns by rw [hki]; exact hname))]
      rw [show ki.1 = k from hki]
      rw [builtMeasurement_export_fail hname (hgrp k hname).1
        (lookup_eq_none_of_not_mem _ _ habs)]
      simp [Bind.bind, Except.bind]
    · have hk2 : k ∈ rest.map Prod.fst := by
        simp only [List.map_cons, List.mem_cons] at hk
        rcases hk with h1 | h1
        · exact absurd h1.symm hki
        · exact h1
      by_cases hname2 : (ki.1 ++ "_name") ∈ fns
      · rw [if_pos (lookupLast_export_isSome hname2)]
        obtain ⟨hap2, hta2, hunit2⟩ := hgrp ki.1 hname2
        rcases builtMeasurement_export_cases r hname2 hap2 hta2 hunit2 with
          ⟨m, hbm⟩ | hbm
        · rw [hbm, ih hk2]
          simp [Bind.bind, Except.bind]
        · rw [hbm]
          simp [Bind.bind, Except.bind]
      · rw [if_neg (lookupLast_export_isNone hname2)]
        exact ih hk2

lemma parse_row_export {catalog : Catalog} {store : List CropRecord} {r : CropRecord}
    (hr : r ∈ store) (hwf : recordWF catalog r)
    (hcov : ∀ k ∈ ((catalog.lookup r.type).getD []).map Prod.fst,
      (k ++ "_name") ∈ fieldnames store → k ∈ r.inputs.map Prod.fst) :
    ∃ r2, parse_row catalog ((fieldnames store).zip (writeRow (fieldnames store) r))
        = Except.ok r2 ∧ recordContentEq r2 r := by
  obtain ⟨kinds, hkinds⟩ := Option.isSome_iff_exists.mp hwf.1
  have hgrp : ∀ k : String, (k ++ "_name") ∈ fieldnames store →
      (k ++ "_amount_per_ha") ∈ fieldnames store ∧
      (k ++ "_total_amount") ∈ fieldnames store ∧
      (k ++ "_unit") ∈ fieldnames store := fun k hk => fieldnames_closure hk
  have hcov2 : ∀ ki ∈ kinds, (ki.1 ++ "_name") ∈ fieldnames store →
      ki.1 ∈ r.inputs.map Prod.fst := by
    intro ki hki hn
    refine hcov ki.1 ?_ hn
    rw [hkinds]
    simp only [Option.getD_some]
    exact List.mem_map.mpr ⟨ki, hki, rfl⟩
  obtain ⟨L, hL, hlook⟩ := parse_inputs_export hgrp kinds hcov2
  refine ⟨{ type := r.type, length := r.length, width := r.width, area := r.area,
            num_rows := r.num_rows, inputs := L }, ?_, ?_⟩
  · rw [parse_row_export_eq (type_mem_fieldnames store) (length_mem_fieldnames store)
      (width_mem_fieldnames store) (area_mem_fieldnames store)
      (num_rows_mem_fieldnames store) hkinds, hL]
    rfl
  · refine ⟨rfl, rfl, rfl, rfl, rfl, ?_⟩
    intro k
    show L.lookup k = r.inputs.lookup k
    rw [hlook k]
    by_cases hmemk : k ∈ r.inputs.map Prod.fst
    · have hmk : k ∈ kinds.map Prod.fst := by
        have h2 := hwf.2 k hmemk
        rw [hkinds] at h2
        simpa using h2
      rw [if_pos ⟨hmk, name_col_mem_fieldnames hr hmemk⟩]
    · have hcnot : ¬(k ∈ kinds.map Prod.fst ∧ (k ++ "_name") ∈ fieldnames store) := by
        rintro ⟨hmk, hn⟩
        obtain ⟨ki, hki, hfst⟩ := List.mem_map.mp hmk
        refine hmemk ?_
        have h3 := hcov2 ki hki (by rw [hfst]; exact hn)
        rw [← hfst]
        exact h3
      rw [if_neg hcnot, lookup_eq_none_of_not_mem _ _ hmemk]

lemma parse_row_export_cases {catalog : Catalog} (store : List CropRecord)
    {r : CropRecord} (hwf : recordWF catalog r) :
    (∃ r2, parse_row catalog ((fieldnames store).zip (writeRow (fieldnames store) r))
        = Except.ok r2) ∨
    parse_row catalog ((fieldnames store).zip (writeRow (fieldnames store) r))
      = Except.error ImportError.valueError := by
  obtain ⟨kinds, hkinds⟩ := Option.isSome_iff_exists.mp hwf.1
  rw [parse_row_export_eq (type_mem_fieldnames store) (length_mem_fieldnames store)
    (width_mem_fieldnames store) (area_mem_fieldnames store)
    (num_rows_mem_fieldnames store) hkinds]
  rcases parse_inputs_export_cases r (fun k hk => fieldnames_closure hk) kinds with
    ⟨L, hL⟩ | hE
  · exact Or.inl ⟨_, by rw [hL]; rfl⟩
  · exact Or.inr (by rw [hE]; rfl)

lemma parse_row_export_fails {catalog : Catalog} {store : List CropRecord}
    {r : CropRecord} (hwf : recordWF catalog r) {k : String}
    (hk : k ∈ ((catalog.lookup r.type).getD []).map Prod.fst)
    (hname : (k ++ "_name") ∈ fieldnames store)
    (habs : k ∉ r.inputs.map Prod.fst) :
    parse_row catalog ((fieldnames store).zip (writeRow (fieldnames store) r))
      = Except.error ImportError.valueError := by
  obtain ⟨kinds, hkinds⟩ := Option.isSome_iff_exists.mp hwf.1
  have hk2 : k ∈ kinds.map Prod.fst := by
    rw [hkinds] at hk
    simpa using hk
  rw [parse_row_export_eq (type_mem_fieldnames store) (length_mem_fieldnames store)
    (width_mem_fieldnames store) (area_mem_fieldnames store)
    (num_rows_mem_fieldnames store) hkinds]
  rw [parse_inputs_export_fail (fun k2 hk3 => fieldnames_closure hk3) hk2 hname habs]
  rfl

lemma parse_rows_export {catalog : Catalog} {store : List CropRecord}
    (hwf : storeWF catalog store) (hcov : coveringSchema catalog store) :
    ∀ l : List CropRecord, (∀ x ∈ l, x ∈ store) →
    ∃ L, parse_rows catalog
        (l.map fun x => (fieldnames store).zip (writeRow (fieldnames store) x))
        = Except.ok L ∧ List.Forall₂ recordContentEq L l := by
  intro l
  induction l with
  | nil => exact fun _ => ⟨[], rfl, List.Forall₂.nil⟩
  | cons r rest ih =>
    intro hsub
    obtain ⟨L, hL, hfa⟩ := ih fun x hx => hsub x (List.mem_cons_of_mem _ hx)
    have hr : r ∈ store := hsub r (List.mem_cons_self _ _)
    obtain ⟨r2, hr2, hceq⟩ := parse_row_export hr (hwf r hr) (hcov r hr)
    refine ⟨r2 :: L, ?_, List.Forall₂.cons hceq hfa⟩
    rw [List.map_cons]
    unfold parse_rows
    rw [hr2, hL]
    simp [Bind.bind, Except.bind, pure, Except.pure]

lemma parse_rows_export_fail {catalog : Catalog} {store : List CropRecord}
    (hwf : storeWF catalog store) :
    ∀ l : List CropRecord, (∀ x ∈ l, x ∈ store) →
    (∃ x ∈ l, parse_row catalog
        ((fieldnames store).zip (writeRow (fieldnames store) x))
        = Except.error ImportError.valueError) →
    parse_rows catalog
        (l.map fun x => (fieldnames store).zip (writeRow (fieldnames store) x))
      = Except.error ImportError.valueError := by
  intro l
  induction l with
  | nil =>
    rintro _ ⟨x, hx, _⟩
    simp at hx
  | cons r rest ih =>
    rintro hsub hex
    have hr : r ∈ store := hsub r (List.mem_cons_self _ _)
    rw [List.map_cons]
    unfold parse_rows
    cases hpr : parse_row catalog
        ((fieldnames store).zip (writeRow (fieldnames store) r)) with
    | error e =>
      rcases parse_row_export_cases store (hwf r hr) with ⟨r2, hok⟩ | hE
      · rw [hpr] at hok
        exact absurd hok (by simp)
      · rw [hpr] at hE
        simp only [Except.error.injEq] at hE
        rw [hE]
        simp [Bind.bind, Except.bind]
    | ok c =>
      have hex2 : ∃ x ∈ rest, parse_row catalog
          ((fieldnames store).zip (writeRow (fieldnames store) x))
          = Except.error ImportError.valueError := by
        obtain ⟨x, hx, hxe⟩ := hex
        rcases List.mem_cons.mp hx with h1 | h1
        · rw [h1, hpr] at hxe
          exact absurd hxe (by simp)
        · exact ⟨x, h1, hxe⟩
      rw [ih (fun x hx => hsub x (List.mem_cons_of_mem _ hx)) hex2]
      simp [Bind.bind, Except.bind]

/-- C5: for every store and every valid 1-based index, `update_crop_data`
replaces the record at that position with the newly entered record in
place: no error is reported, the size is unchanged, position `index - 1`
holds the new record, and every other position keeps its original record
(in particular no record is moved to the end). -/
theorem C5_update_in_place (catalog : Catalog) (index : ℤ)
    (choice : Fin catalog.length) (flength fwidth : ℚ) (nrows : ℤ)
    (amounts : String → ℚ) (store : List CropRecord)
    (h1 : 1 ≤ index) (h2 : index ≤ (store.length : ℤ)) :
    (update_crop_data catalog index choice flength fwidth nrows amounts store).2 = none ∧
    (update_crop_data catalog index choice flength fwidth nrows amounts store).1.length
      = store.length ∧
    (update_crop_data catalog index choice flength fwidth nrows amounts store).1[(index - 1).toNat]?
      = some (new_record catalog choice flength fwidth nrows amounts) ∧
    ∀ j : ℕ, j ≠ (index - 1).toNat →
      (update_crop_data catalog index choice flength fwidth nrows amounts store).1[j]?
        = store[j]? := by
  have hne : store.isEmpty = false := by
    cases store with
    | nil => simp at h2; omega
    | cons a l => rfl
  have hcond : 0 ≤ index - 1 ∧ index - 1 < (store.length : ℤ) := by omega
  have happ : (input_crop_data catalog choice flength fwidth nrows amounts store).dropLast
      = store := by
    simp [input_crop_data]
  have hlast : (input_crop_data catalog choice flength fwidth nrows amounts store).getLastD
      (new_record catalog choice flength fwidth nrows amounts)
      = new_record catalog choice flength fwidth nrows amounts := by
    simp [input_crop_data, List.getLastD_concat]
  have hres : update_crop_data catalog index choice flength fwidth nrows amounts store
      = (store.set (index - 1).toNat (new_record catalog choice flength fwidth nrows amounts),
          none) := by
    unfold update_crop_data
    rw [hne]
    simp only [Bool.false_eq_true, if_false, if_pos hcond, happ, hlast]
  rw [hres]
  have hlt : (index - 1).toNat < store.length := by omega
  refine ⟨rfl, List.length_set store _ _, ?_, ?_⟩
  · have hlt2 : index.toNat - 1 < store.length := by omega
    simp [List.getElem?_set_self, hlt2]
  · intro j hj
    exact List.getElem?_set_ne (fun h => hj h.symm)

theorem C5_update_in_place_witness :
    (update_crop_data sampleCatalog 1 ⟨0, by decide⟩ 100 50 10 (fun _ => 200)
        [sampleBare, sampleFull]).2 = none ∧
    (update_crop_data sampleCatalog 1 ⟨0, by decide⟩ 100 50 10 (fun _ => 200)
        [sampleBare, sampleFull]).1.length = ([sampleBare, sampleFull] : List CropRecord).length ∧
    (update_crop_data sampleCatalog 1 ⟨0, by decide⟩ 100 50 10 (fun _ => 200)
        [sampleBare, sampleFull]).1[((1 : ℤ) - 1).toNat]?
      = some (new_record sampleCatalog ⟨0, by decide⟩ 100 50 10 (fun _ => 200)) := by
  have h := C5_update_in_place sampleCatalog 1 ⟨0, by decide⟩ 100 50 10 (fun _ => 200)
    [sampleBare, sampleFull] (by decide) (by decide)
  exact ⟨h.1, h.2.1, h.2.2.1⟩

/-- C6: update with an out-of-range 1-based index (`index < 1` or
`index > size`) reports an error and leaves the store exactly as it was:
no record is added, removed or modified. -/
theorem C6_update_out_of_range (catalog : Catalog) (index : ℤ)
    (choice : Fin catalog.length) (flength fwidth : ℚ) (nrows : ℤ)
    (amounts : String → ℚ) (store : List CropRecord)
    (h : index < 1 ∨ (store.length : ℤ) < index) :
    (update_crop_data catalog index choice flength fwidth nrows amounts store).1 = store ∧
    (update_crop_data catalog index choice flength fwidth nrows amounts store).2 ≠ none := by
  cases hse : store.isEmpty with
  | true =>
    unfold update_crop_data
    rw [hse]
    simp
  | false =>
    have hcond : ¬ (0 ≤ index - 1 ∧ index - 1 < (store.length : ℤ)) := by omega
    have hres : update_crop_data catalog index choice flength fwidth nrows amounts store
        = (store, some StoreError.invalidIndex) := by
      unfold update_crop_data
      rw [hse]
      simp only [Bool.false_eq_true, if_false, if_neg hcond]
    rw [hres]
    exact ⟨rfl, by simp⟩

theorem C6_update_out_of_range_witness :
    (update_crop_data sampleCatalog 3 ⟨0, by decide⟩ 100 50 10 (fun _ => 200)
        [sampleBare, sampleFull]).1 = [sampleBare, sampleFull] ∧
    (update_crop_data sampleCatalog 3 ⟨0, by decide⟩ 100 50 10 (fun _ => 200)
        [sampleBare, sampleFull]).2 ≠ none :=
  C6_update_out_of_range sampleCatalog 3 ⟨0, by decide⟩ 100 50 10 (fun _ => 200)
    [sampleBare, sampleFull] (by decide)

/-- C7: delete with a valid 1-based index removes exactly the record at
that position: the result is the records before it followed by the records
after it (relative order preserved), and the size drops by exactly one. -/
theorem C7_delete_removes_one (index : ℤ) (store : List CropRecord)
    (h1 : 1 ≤ index) (h2 : index ≤ (store.length : ℤ)) :
    (delete_crop_data index store).2 = none ∧
    (delete_crop_data index store).1
      = store.take (index - 1).toNat ++ store.drop index.toNat ∧
    (delete_crop_data index store).1.length + 1 = store.length := by
  have hne : store.isEmpty = false := by
    cases store with
    | nil => simp at h2; omega
    | cons a l => rfl
  have hcond : 0 ≤ index - 1 ∧ index - 1 < (store.length : ℤ) := by omega
  have hres : delete_crop_data index store
      = (store.eraseIdx (index - 1).toNat, none) := by
    unfold delete_crop_data
    rw [hne]
    simp only [Bool.false_eq_true, if_false, if_pos hcond]
  rw [hres]
  have hlt : (index - 1).toNat < store.length := by omega
  refine ⟨rfl, ?_, ?_⟩
  · rw [List.eraseIdx_eq_take_drop_succ]
    have : (index - 1).toNat + 1 = index.toNat := by omega
    rw [this]
  · rw [List.length_eraseIdx_of_lt hlt]
    omega

theorem C7_delete_removes_one_witness :
    (delete_crop_data 1 [sampleBare, sampleFull]).2 = none ∧
    (delete_crop_data 1 [sampleBare, sampleFull]).1
      = ([sampleBare, sampleFull] : List CropRecord).take ((1 : ℤ) - 1).toNat
          ++ ([sampleBare, sampleFull] : List CropRecord).drop (1 : ℤ).toNat ∧
    (delete_crop_data 1 [sampleBare, sampleFull]).1.length + 1
      = ([sampleBare, sampleFull] : List CropRecord).length :=
  C7_delete_removes_one 1 [sampleBare, sampleFull] (by decide) (by decide)

/-- C9: exporting an empty store is a no-op: the guard reports "No data
available to export." and returns before the output file is opened, so no
file is created or overwritten (and the store, of which the embedded
export is a pure function, is untouched). -/
theorem C9_export_empty_noop : export_to_csv [] = none := rfl

/-- C3: the import is all-or-nothing: whenever any error is reported
(missing file, missing column, unparsable numeric cell, or a crop type
absent from the Input Catalog), the store after the call equals the store
before it; the store is replaced exactly when every row of the file parsed
successfully, and then it holds the parsed rows. -/
theorem C3_import_all_or_nothing (catalog : Catalog) (file : Option (List Row))
    (store : List CropRecord) :
    ((import_from_csv catalog file store).2 ≠ none →
      (import_from_csv catalog file store).1 = store) ∧
    ((import_from_csv catalog file store).2 = none →
      ∃ rows newData, file = some rows ∧
        parse_rows catalog rows = Except.ok newData ∧
        (import_from_csv catalog file store).1 = newData) := by
  cases file with
  | none => exact ⟨fun _ => rfl, fun hc => absurd hc (by simp [import_from_csv])⟩
  | some rows =>
    cases h : parse_rows catalog rows with
    | ok newData =>
      have hres : import_from_csv catalog (some rows) store = (newData, none) := by
        simp [import_from_csv, h]
      rw [hres]
      exact ⟨fun hne => absurd rfl hne, fun _ => ⟨rows, newData, rfl, h, rfl⟩⟩
    | error e =>
      have hres : import_from_csv catalog (some rows) store = (store, some e) := by
        simp [import_from_csv, h]
      rw [hres]
      exact ⟨fun _ => rfl, fun hc => absurd hc (by simp)⟩

theorem C3_import_all_or_nothing_witness :
    (import_from_csv sampleCatalog (some [[]]) [sampleBare]).1 = [sampleBare] :=
  (C3_import_all_or_nothing sampleCatalog (some [[]]) [sampleBare]).1 (by decide)

/-- C4: in a successfully imported row, for every input kind the Input
Catalog declares for the row's crop type, the reconstructed record holds a
measurement under that kind exactly when the `{kind}_name` column is
present in the row dict, and that measurement is the one built from the
four `{kind}_*` cells; kinds whose name column is absent are absent from
the record's measurements. -/
theorem C4_import_kind_iff (catalog : Catalog) (row : Row) (r : CropRecord)
    (h : parse_row catalog row = Except.ok r)
    (kinds : List (String × InputInfo)) (hk : catalog.lookup r.type = some kinds)
    (k : String) (hkk : k ∈ kinds.map Prod.fst) :
    (lookupLast (k ++ "_name") row = none → r.inputs.lookup k = none) ∧
    ((lookupLast (k ++ "_name") row).isSome →
      ∃ m, builtMeasurement row k = Except.ok m ∧ r.inputs.lookup k = some m) := by
  obtain ⟨tcell, kinds2, ht, hty, hml, hinp⟩ := parse_row_ok_elim h
  rw [hty, hml] at hk
  have hkeq : kinds2 = kinds := by simpa using hk
  subst hkeq
  constructor
  · intro hnone
    refine (parse_inputs_lookup hinp k).2 fun hc => ?_
    rw [hnone] at hc
    simp at hc
  · intro hsome
    exact (parse_inputs_lookup hinp k).1 ⟨hkk, hsome⟩

theorem C4_import_kind_iff_witness :
    (lookupLast ("fertilizer" ++ "_name") sampleRow = none →
      sampleFull.inputs.lookup "fertilizer" = none) ∧
    ((lookupLast ("fertilizer" ++ "_name") sampleRow).isSome →
      ∃ m, builtMeasurement sampleRow "fertilizer" = Except.ok m ∧
        sampleFull.inputs.lookup "fertilizer" = some m) :=
  C4_import_kind_iff sampleCatalog sampleRow sampleFull rfl
    [("fertilizer", sampleInfo)] rfl "fertilizer" (by decide)

/-- C8: well-formedness (each record's crop type is a catalog key and its
measurement keys are among the catalog's kinds for that crop type) is
preserved by every store operation: enter, update, delete and import. -/
theorem C8_invariant (catalog : Catalog) (store : List CropRecord)
    (h : storeWF catalog store) (choice : Fin catalog.length)
    (flength fwidth : ℚ) (nrows index : ℤ) (amounts : String → ℚ)
    (file : Option (List Row)) :
    storeWF catalog
      (input_crop_data catalog choice flength fwidth nrows amounts store) ∧
    storeWF catalog
      (update_crop_data catalog index choice flength fwidth nrows amounts store).1 ∧
    storeWF catalog (delete_crop_data index store).1 ∧
    storeWF catalog (import_from_csv catalog file store).1 := by
  have hnew := new_record_wf catalog choice flength fwidth nrows amounts
  refine ⟨?_, ?_, ?_, ?_⟩
  · intro r hr
    rcases List.mem_append.mp hr with h1 | h1
    · exact h r h1
    · rw [List.mem_singleton] at h1
      rw [h1]
      exact hnew
  · rcases update_crop_data_cases catalog index choice flength fwidth nrows
      amounts store with hcase | hcase
    · rw [hcase]
      exact h
    · rw [hcase]
      intro r hr
      rcases List.mem_or_eq_of_mem_set hr with h1 | h1
      · exact h r h1
      · rw [h1]
        exact hnew
  · rcases delete_crop_data_cases index store with hcase | hcase
    · rw [hcase]
      exact h
    · rw [hcase]
      intro r hr
      exact h r (List.mem_of_mem_eraseIdx hr)
  · cases file with
    | none => exact h
    | some rows =>
      cases hp : parse_rows catalog rows with
      | ok newData =>
        have hres : (import_from_csv catalog (some rows) store).1 = newData := by
          simp [import_from_csv, hp]
        rw [hres]
        exact parse_rows_wf hp
      | error e =>
        have hres : (import_from_csv catalog (some rows) store).1 = store := by
          simp [import_from_csv, hp]
        rw [hres]
        exact h

theorem C8_invariant_witness :
    storeWF sampleCatalog
      (input_crop_data sampleCatalog ⟨0, by decide⟩ 100 50 10 (fun _ => 200) [sampleFull]) ∧
    storeWF sampleCatalog
      (update_crop_data sampleCatalog 1 ⟨0, by decide⟩ 100 50 10 (fun _ => 200) [sampleFull]).1 ∧
    storeWF sampleCatalog (delete_crop_data 1 [sampleFull]).1 ∧
    storeWF sampleCatalog (import_from_csv sampleCatalog none [sampleFull]).1 :=
  C8_invariant sampleCatalog [sampleFull] (by decide) ⟨0, by decide⟩
    100 50 10 1 (fun _ => 200) none

/-- C2 as stated is false on the code: for a store in which two records
share an input kind, the header computed by `export_to_csv` repeats that
kind's group of four columns, whereas the claimed schema
(`fieldnamesClaimed`, the union without duplicates) lists it once. -/
theorem C2_schema_counterexample :
    fieldnames [sampleFull, sampleFull] ≠ fieldnamesClaimed [sampleFull, sampleFull] := by
  decide

/-- C2 amended: the schema computed by export is the fixed columns
`[type, length, width, area, num_rows]` followed by, for each record in
store order and each input kind present in that record (in the record's
dict order), one group of the four columns `{kind}_name`,
`{kind}_amount_per_ha`, `{kind}_total_amount`, `{kind}_unit`; a kind
shared by several records contributes one group per record containing it
(duplicates are not removed). -/
theorem C2_schema_amended (store : List CropRecord) :
    fieldnames store = fieldnamesAmended store := by
  unfold fieldnames fieldnamesAmended
  simp only [subfield_group]

/-- C1 as stated is false on the code: a well-formed non-empty store with
only non-negative amounts, in which one record lacks an input kind that
another record carries, exports to a file whose re-import aborts with
`ValueError` (the empty numeric cells reach `float`), so the round trip
does not reproduce the store by parsing it back. -/
theorem C1_roundtrip_counterexample :
    ([sampleFull, sampleBare] : List CropRecord) ≠ [] ∧
    storeWF sampleCatalog [sampleFull, sampleBare] ∧
    (∀ r ∈ ([sampleFull, sampleBare] : List CropRecord),
      ∀ km ∈ r.inputs, 0 ≤ km.2.amount_per_ha) ∧
    (import_from_csv sampleCatalog
        ((export_to_csv [sampleFull, sampleBare]).map readCSVFile)
        [sampleFull, sampleBare]).2 = some ImportError.valueError := by
  exact ⟨by decide, by decide, by decide, by decide⟩

/-- C1 amended: for every non-empty well-formed record store whose
input-kind amounts are all non-negative and in which every record carries
a measurement for each Input-Catalog kind of its crop type whose
`{kind}_name` column appears in the export's header (`coveringSchema` —
the condition the counterexample shows is necessary), exporting the store
and importing the produced file succeeds and yields a store equal in
content to the original: same length and, position by position, equal
crop type, dimensions, area, row count and the same set of present
input-kind measurements with equal values. -/
theorem C1_roundtrip_amended (catalog : Catalog) (store : List CropRecord)
    (hne : store ≠ []) (hwf : storeWF catalog store)
    (hnn : ∀ r ∈ store, ∀ km ∈ r.inputs, 0 ≤ km.2.amount_per_ha)
    (hcov : coveringSchema catalog store) (s : List CropRecord) :
    (import_from_csv catalog ((export_to_csv store).map readCSVFile) s).2 = none ∧
    List.Forall₂ recordContentEq
      (import_from_csv catalog ((export_to_csv store).map readCSVFile) s).1 store := by
  have hie : store.isEmpty = false := by
    cases store with
    | nil => exact absurd rfl hne
    | cons a l => rfl
  have hexp : export_to_csv store
      = some (fieldnames store, store.map (writeRow (fieldnames store))) := by
    unfold export_to_csv
    rw [hie]
    simp
  have hread : readCSVFile (fieldnames store, store.map (writeRow (fieldnames store)))
      = store.map fun x => (fieldnames store).zip (writeRow (fieldnames store) x) := by
    unfold readCSVFile
    rw [List.map_map]
    rfl
  obtain ⟨L, hL, hfa⟩ := parse_rows_export hwf hcov store fun x hx => hx
  have hres : import_from_csv catalog
      ((export_to_csv store).map readCSVFile) s = (L, none) := by
    rw [hexp]
    simp only [Option.map_some']
    rw [hread]
    simp [import_from_csv, hL]
  rw [hres]
  exact ⟨rfl, hfa⟩

theorem C1_roundtrip_amended_witness :
    (import_from_csv sampleCatalog
        ((export_to_csv [sampleFull]).map readCSVFile) []).2 = none ∧
    List.Forall₂ recordContentEq
      (import_from_csv sampleCatalog
        ((export_to_csv [sampleFull]).map readCSVFile) []).1 [sampleFull] :=
  C1_roundtrip_amended sampleCatalog [sampleFull] (by decide) (by decide)
    (by decide) (by decide) []

/-- C10: when the export header carries the `{kind}_name` column for an
input kind that the Input Catalog declares for some record's crop type
but that record does not carry — exactly the shape export produces for a
record lacking a kind another record has — importing the exported file
does not treat the kind as absent: the empty numeric cell reaches
`float`, the whole import aborts with `ValueError`, and the store (any
prior store `s`) is left unchanged. -/
theorem C10_empty_cell_aborts (catalog : Catalog) (store : List CropRecord)
    (hwf : storeWF catalog store) (r : CropRecord) (hr : r ∈ store) (k : String)
    (hk : k ∈ ((catalog.lookup r.type).getD []).map Prod.fst)
    (hcol : (k ++ "_name") ∈ fieldnames store)
    (habs : k ∉ r.inputs.map Prod.fst) (s : List CropRecord) :
    import_from_csv catalog ((export_to_csv store).map readCSVFile) s
      = (s, some ImportError.valueError) := by
  have hie : store.isEmpty = false := by
    cases store with
    | nil => simp at hr
    | cons a l => rfl
  have hexp : export_to_csv store
      = some (fieldnames store, store.map (writeRow (fieldnames store))) := by
    unfold export_to_csv
    rw [hie]
    simp
  have hread : readCSVFile (fieldnames store, store.map (writeRow (fieldnames store)))
      = store.map fun x => (fieldnames store).zip (writeRow (fieldnames store) x) := by
    unfold readCSVFile
    rw [List.map_map]
    rfl
  have hfail := parse_rows_export_fail hwf store (fun x hx => hx)
    ⟨r, hr, parse_row_export_fails (hwf r hr) hk hcol habs⟩
  rw [hexp]
  simp only [Option.map_some']
  rw [hread]
  simp [import_from_csv, hfail]

theorem C10_empty_cell_aborts_witness :
    import_from_csv sampleCatalog
        ((export_to_csv [sampleFull, sampleBare]).map readCSVFile)
        [sampleFull, sampleBare]
      = ([sampleFull, sampleBare], some ImportError.valueError) :=
  C10_empty_cell_aborts sampleCatalog [sampleFull, sampleBare] (by decide)
    sampleBare (List.mem_cons_of_mem _ (List.mem_cons_self _ _))
    "fertilizer" (by decide) (by decide) (by decide)
    [sampleFull, sampleBare]

end FarmTech
